import Mathlib

/-!
Verification development for the ThinkVision rail-itinerary server
(backend server, file src/unnamed/part_000, with the OOP-refactored
RouteSearch variant kept alongside it in the repository).

Strings are modelled as lists of characters (the type Str below).  The
JavaScript string primitives used by the server (trim, toLowerCase,
toUpperCase, includes, split, Number coercion, parseInt) are modelled on
their ASCII fragment, which covers every input appearing in the claims;
in particular Unicode NFD normalisation inside cleanString is modelled as
the identity (no decomposition table is embedded), which is exact on
ASCII input.
-/

abbrev Str := List Char

/-- Whitespace test used by the model of the JavaScript trim (ASCII fragment). -/
def isWsChar (c : Char) : Bool :=
  c == ' ' || c == '\t' || c == '\n' || c == '\r'

/-- Model of String.prototype.trim: drop whitespace from both ends. -/
def trimL (s : Str) : Str :=
  ((s.dropWhile isWsChar).reverse.dropWhile isWsChar).reverse

/-- Combining-diacritical-marks block U+0300 to U+036F, removed by cleanString. -/
def isCombiningMark (c : Char) : Bool :=
  decide (0x300 ≤ c.toNat) && decide (c.toNat ≤ 0x36F)

/-- ASCII lower-casing of one character (model of toLowerCase). -/
def lowerChar (c : Char) : Char :=
  if 'A' ≤ c ∧ c ≤ 'Z' then Char.ofNat (c.toNat + 32) else c

/-- ASCII upper-casing of one character (model of toUpperCase). -/
def upperChar (c : Char) : Char :=
  if 'a' ≤ c ∧ c ≤ 'z' then Char.ofNat (c.toNat - 32) else c

/-- Model of toUpperCase on a string. -/
def upperStr (s : Str) : Str := s.map upperChar

/-- cleanString from the source: NFD-normalise (identity on ASCII), strip
combining marks, trim, lower-case. -/
def cleanString (s : Str) : Str :=
  (trimL (s.filter (fun c => !isCombiningMark c))).map lowerChar

/-- nonEmpty from the source: the trimmed string is not empty. -/
def nonEmptyS (s : Str) : Bool :=
  !(trimL s).isEmpty

/-- Model of String.prototype.includes: some suffix of the haystack has the
pattern as a prefix. -/
def containsSub (hay pat : Str) : Bool :=
  hay.tails.any (fun t => pat.isPrefixOf t)

/-- Model of String.prototype.split on a single separator character.
Splitting the empty string yields one empty piece, as in JavaScript. -/
def splitOnC (sep : Char) : Str → List Str
  | [] => [[]]
  | c :: rest =>
    let r := splitOnC sep rest
    if c == sep then [] :: r
    else
      match r with
      | [] => [[c]]
      | h :: t => (c :: h) :: t

/-- dayNameToCode from the source: the alias table from day names and
abbreviations to canonical codes. -/
def dayNameToCode (s : Str) : Option Str :=
  List.lookup s
    [(("mon").data, ("MON").data), (("monday").data, ("MON").data),
     (("tue").data, ("TUE").data), (("tues").data, ("TUE").data), (("tuesday").data, ("TUE").data),
     (("wed").data, ("WED").data), (("weds").data, ("WED").data), (("wednesday").data, ("WED").data),
     (("thu").data, ("THU").data), (("thur").data, ("THU").data), (("thurs").data, ("THU").data), (("thursday").data, ("THU").data),
     (("fri").data, ("FRI").data), (("friday").data, ("FRI").data),
     (("sat").data, ("SAT").data), (("saturday").data, ("SAT").data),
     (("sun").data, ("SUN").data), (("sunday").data, ("SUN").data)]

/-- daysArr from the source: the seven canonical codes in calendar order. -/
def daysArr : List Str :=
  [("MON").data, ("TUE").data, ("WED").data, ("THU").data, ("FRI").data, ("SAT").data, ("SUN").data]

/-- All seven weekday codes (the value returned by the daily and all shortcuts). -/
def week7 : List Str := daysArr

/-- Alias resolution used throughout expandDays: look the token up directly,
then by its first three characters. -/
def lookupDay (name : Str) : Option Str :=
  match dayNameToCode name with
  | some c => some c
  | none => dayNameToCode (name.take 3)

/-- Index of a resolved day token in daysArr; none models the JavaScript
indexOf result -1 (token unrecognised). -/
def dayIdx (name : Str) : Option Nat :=
  match lookupDay name with
  | none => none
  | some c => daysArr.findIdx? (fun d => d == c)

/-- addDay from the source: append the resolved code unless already present. -/
def addDay (result : List Str) (name : Str) : List Str :=
  match lookupDay name with
  | none => result
  | some code => if result.contains code then result else result ++ [code]

/-- Forward range walk of the non-wrapping branch: push codes start..stop,
each guarded by a membership check, onto the accumulator. -/
def addRange (result : List Str) (start stop : Nat) : List Str :=
  ((List.range' start (stop + 1 - start)).map (fun i => daysArr.getD i [])).foldl
    (fun acc c => if acc.contains c then acc else acc ++ [c]) result

/-- Wrapping range walk: from index i, push codes advancing modulo 7 and stop
once the end index has been pushed; the fuel bound 7 models the loop bound
i < start + 7 of the source. -/
def wrapWalk (fuel i stop : Nat) : List Str :=
  match fuel with
  | 0 => []
  | f + 1 =>
    let idx := i % 7
    let code := daysArr.getD idx []
    if idx == stop then [code] else code :: wrapWalk f (i + 1) stop

/-- Accumulator pass keeping the first occurrence of every element. -/
def dedupFirstAux (seen : List Str) : List Str → List Str
  | [] => []
  | x :: xs =>
    if seen.contains x then dedupFirstAux seen xs
    else x :: dedupFirstAux (seen ++ [x]) xs

/-- Deduplication keeping first occurrences: the net effect of the splice
loop of the source, which removes every element whose first index differs
from its position. -/
def dedupFirst (l : List Str) : List Str := dedupFirstAux [] l

/-- Token loop of expandDays over the comma-separated parts. -/
def expandGo : List Str → List Str → List Str
  | [], result => result
  | p :: rest, result =>
    if p.contains '-' then
      let pieces := (splitOnC '-' p).map trimL
      let a := pieces.getD 0 []
      let b := pieces.getD 1 []
      if a.isEmpty || b.isEmpty then expandGo rest result
      else
        match dayIdx a, dayIdx b with
        | some s, some e =>
          if s ≤ e then expandGo rest (addRange result s e)
          else expandGo rest (dedupFirst (result ++ wrapWalk 7 s e))
        | _, _ => expandGo rest result
    else expandGo rest (addDay result p)

/-- expandDays from the source: normalise, shortcut on a daily substring or
an exact all, then process comma-separated single-day and range tokens. -/
def expandDays (input : Str) : List Str :=
  let segment := cleanString input
  if !nonEmptyS segment then []
  else if containsSub segment (("daily").data) || segment == ("all").data then week7
  else
    let parts := ((splitOnC ',' segment).map trimL).filter (fun p => !p.isEmpty)
    expandGo parts []

/-- Leading digit test for the numeric-coercion models (characters 0 to 9). -/
def isDigitC (c : Char) : Bool :=
  decide (48 ≤ c.toNat) && decide (c.toNat ≤ 57)

/-- Numeric value of a digit character. -/
def digitVal (c : Char) : Nat := c.toNat - 48

/-- Value of a digit string read left to right. -/
def digitsVal (l : Str) : Nat :=
  l.foldl (fun acc c => acc * 10 + digitVal c) 0

/-- Model of the JavaScript Number() coercion on its integer fragment:
trim whitespace, coerce the empty string to 0, accept an optional sign
followed by digits, and return none for NaN.  Decimal, hexadecimal and
exponent forms do not occur in the inputs this development evaluates. -/
def jsNumber (s : Str) : Option Int :=
  let t := trimL s
  if t.isEmpty then some 0
  else
    match t with
    | '-' :: rest =>
      if rest.isEmpty then none
      else if rest.all isDigitC then some (-(digitsVal rest : Int)) else none
    | '+' :: rest =>
      if rest.isEmpty then none
      else if rest.all isDigitC then some ((digitsVal rest : Int)) else none
    | _ =>
      if t.all isDigitC then some ((digitsVal t : Int)) else none

/-- Model of the JavaScript parseInt on its integer fragment: trim, optional
sign, then the longest leading digit run; none models NaN. -/
def parseIntJS (s : Str) : Option Int :=
  let t := trimL s
  match t with
  | '-' :: rest =>
    let digits := rest.takeWhile isDigitC
    if digits.isEmpty then none else some (-(digitsVal digits : Int))
  | '+' :: rest =>
    let digits := rest.takeWhile isDigitC
    if digits.isEmpty then none else some ((digitsVal digits : Int))
  | _ =>
    let digits := t.takeWhile isDigitC
    if digits.isEmpty then none else some ((digitsVal digits : Int))

/-- timeToMinutes from the source: split on the colon, coerce the first two
fields with Number(), return 0 when either is NaN (a missing second field
coerces Number(undefined) = NaN), else hours * 60 + minutes. -/
def timeToMinutes (time : Str) : Int :=
  let pieces := splitOnC ':' time
  let hours := jsNumber (pieces.getD 0 [])
  let minutes :=
    match pieces.drop 1 with
    | [] => none
    | p :: _ => jsNumber p
  match hours, minutes with
  | some h, some m => h * 60 + m
  | _, _ => 0

/-- Price record of a route (first-class and second-class amounts). -/
structure Price where
  first : Int
  second : Int
deriving Repr, DecidableEq

/-- Route record as built by normalizeRow; the source field named from is
called fromCity here because from is a Lean keyword. -/
structure Route where
  routeId : Str
  fromCity : Str
  arriveCity : Str
  departTime : Str
  arriveTime : Str
  trainType : Str
  days : List Str
  price : Price
deriving Repr, DecidableEq

/-- minTransferTime from the source. -/
def minTransferTime : Int := 10

/-- segmentDurationMinutes from the source: arrival minus departure, plus
1440 when the segment crosses midnight. -/
def segmentDurationMinutes (segment : Route) : Int :=
  let departure := timeToMinutes segment.departTime
  let arrival := timeToMinutes segment.arriveTime
  if arrival ≥ departure then arrival - departure else arrival + 24 * 60 - departure

/-- transferMinutes from the source, on the raw clock strings: next departure
minus previous arrival, plus 1440 when negative. -/
def transferMinutesT (arriveTime departTime : Str) : Int :=
  let arrival := timeToMinutes arriveTime
  let departure := timeToMinutes departTime
  let diff := departure - arrival
  if diff ≥ 0 then diff else diff + 24 * 60

/-- transferMinutes from the source, reading the clock strings off the two
route records exactly as the code does. -/
def transferMinutes (prev next : Route) : Int :=
  transferMinutesT prev.arriveTime next.departTime

/-- sumPrice from the source: elementwise sum of the per-class prices.  The
JavaScript guard (price or 0) only replaces falsy values and is the identity
on this integer model. -/
def sumPrice (segments : List Route) : Price :=
  segments.foldl (fun total s => ⟨total.first + s.price.first, total.second + s.price.second⟩) ⟨0, 0⟩

/-- Itinerary record as produced by toItinerary. -/
structure Itinerary where
  id : Str
  totalDurationMinutes : Int
  totalPrice : Price
  transferTimes : List Int
  segments : List Route
deriving Repr, DecidableEq

/-- toItinerary from the source: inter-leg gaps of adjacent segments, total
duration as segment durations plus gaps, ids joined with a plus sign. -/
def toItinerary (segments : List Route) : Itinerary :=
  let transfers := (segments.zip (segments.drop 1)).map (fun ab => transferMinutes ab.1 ab.2)
  let duration :=
    (segments.map segmentDurationMinutes).foldl (· + ·) 0 + transfers.foldl (· + ·) 0
  { id := List.intercalate (("+").data) (segments.map Route.routeId)
    totalDurationMinutes := duration
    totalPrice := sumPrice segments
    transferTimes := transfers
    segments := segments }

/-- matchesDay from the source: an empty day filter matches everything, else
the route's days must contain the upper-cased filter. -/
def matchesDay (segment : Route) (day : Str) : Bool :=
  !nonEmptyS day || segment.days.contains (upperStr day)

/-- Bucket of the index built by buildIndex for one normalized key: buildIndex
groups the routes by cleanString of their departure city, preserving order,
so the bucket is exactly the order-preserving filter on that key. -/
def bucketFor (routes : List Route) (key : Str) : List Route :=
  routes.filter (fun r => cleanString r.fromCity == key)

/-- Map.get on the index built by buildIndex: a key is present iff its bucket
is non-empty (buildIndex only ever creates a key by pushing a route to it). -/
def indexGet (routes : List Route) (key : Str) : Option (List Route) :=
  let b := bucketFor routes key
  if b.isEmpty then none else some b

/-- getStartList from the source: empty query yields no routes; exact bucket
first; when it is empty, a substring-containment scan of the normalized
departure city over the full route collection. -/
def getStartList (routes : List Route) (fromQ : Str) : List Route :=
  let cleanedCity := cleanString fromQ
  if cleanedCity.isEmpty then []
  else
    let exact := (indexGet routes cleanedCity).getD []
    if !exact.isEmpty then exact
    else routes.filter (fun r => containsSub (cleanString r.fromCity) cleanedCity)

/-- Connecting-city lookup of oneStopSearch and twoStopSearch: the index
bucket when the key is present, else a scan requiring the normalized
departure city to equal the key exactly. -/
def midOptions (routes : List Route) (midCity : Str) : List Route :=
  match indexGet routes midCity with
  | some l => l
  | none => routes.filter (fun r => cleanString r.fromCity == midCity)

/-- directSearch from the source. -/
def directSearch (routes : List Route) (fromQ toQ day : Str) : List Route :=
  let startList := getStartList routes fromQ
  let cleanedTo := cleanString toQ
  startList.filter (fun r => containsSub (cleanString r.arriveCity) cleanedTo && matchesDay r day)

/-- oneStopSearch from the source (src/unnamed/part_000 lines 231-256): note
that this version checks only the minimum-transfer threshold on the gap. -/
def oneStopSearch (routes : List Route) (fromQ toQ day : Str) : List (List Route) :=
  let cleanedTo := cleanString toQ
  (getStartList routes fromQ).flatMap (fun firstRoute =>
    let midCity := cleanString firstRoute.arriveCity
    (midOptions routes midCity).filterMap (fun secondRoute =>
      if containsSub (cleanString secondRoute.arriveCity) cleanedTo = true
          ∧ matchesDay firstRoute day = true
          ∧ matchesDay secondRoute day = true
          ∧ minTransferTime ≤ transferMinutes firstRoute secondRoute
      then some [firstRoute, secondRoute] else none))

/-- twoStopSearch from the source (src/unnamed/part_000 lines 258-292). -/
def twoStopSearch (routes : List Route) (fromQ toQ day : Str) : List (List Route) :=
  let cleanedTo := cleanString toQ
  (getStartList routes fromQ).flatMap (fun firstRoute =>
    let firstMidCity := cleanString firstRoute.arriveCity
    (midOptions routes firstMidCity).flatMap (fun secondRoute =>
      if matchesDay firstRoute day = true ∧ matchesDay secondRoute day = true
          ∧ minTransferTime ≤ transferMinutes firstRoute secondRoute
      then
        let secondMidCity := cleanString secondRoute.arriveCity
        (midOptions routes secondMidCity).filterMap (fun thirdRoute =>
          if containsSub (cleanString thirdRoute.arriveCity) cleanedTo = true
              ∧ matchesDay thirdRoute day = true
              ∧ minTransferTime ≤ transferMinutes secondRoute thirdRoute
          then some [firstRoute, secondRoute, thirdRoute] else none)
      else []))

/-- Stable insertion step: a new element goes after every existing element
that compares less-or-equal, modelling a stable ascending comparator sort. -/
def insSorted (le : Itinerary → Itinerary → Bool) (x : Itinerary) : List Itinerary → List Itinerary
  | [] => [x]
  | y :: ys => if le y x then y :: insSorted le x ys else x :: y :: ys

/-- Stable sort modelling Array.prototype.sort with an ascending comparator
(stable in the engines this server targets). -/
def stableSort (le : Itinerary → Itinerary → Bool) (l : List Itinerary) : List Itinerary :=
  l.foldl (fun acc x => insSorted le x acc) []

/-- Lexicographic character-code order, the model of localeCompare on the
zero-padded ASCII time strings the depart comparator receives. -/
def leLex : Str → Str → Bool
  | [], _ => true
  | _ :: _, [] => false
  | a :: as, b :: bs =>
    if a.toNat < b.toNat then true
    else if b.toNat < a.toNat then false
    else leLex as bs

/-- Departure-time key of the depart comparator, empty when there are no
segments. -/
def firstDepart (it : Itinerary) : Str :=
  match it.segments with
  | [] => []
  | s :: _ => s.departTime

/-- Sorting stage of the search endpoint: ascending by total duration, by
second-class total price, or by first departure time; an unrecognized sort
key leaves the order unchanged. -/
def sortItins (sortKey : Str) (itins : List Itinerary) : List Itinerary :=
  if sortKey == ("duration").data then
    stableSort (fun a b => decide (a.totalDurationMinutes ≤ b.totalDurationMinutes)) itins
  else if sortKey == ("price").data then
    stableSort (fun a b => decide (a.totalPrice.second ≤ b.totalPrice.second)) itins
  else if sortKey == ("depart").data then
    stableSort (fun a b => leLex (firstDepart a) (firstDepart b)) itins
  else itins

/-- Search endpoint from the source (the /api/search handler): direct first;
one-stop only when direct produced nothing; two-stop only when one-stop also
produced nothing; then the sort stage. -/
def apiSearch (routes : List Route) (fromQ toQ day sortKey : Str) : List Itinerary :=
  let itins0 := (directSearch routes fromQ toQ day).map (fun r => toItinerary [r])
  let itins1 :=
    if itins0.isEmpty then itins0 ++ (oneStopSearch routes fromQ toQ day).map toItinerary
    else itins0
  let itins2 :=
    if itins1.isEmpty then itins1 ++ (twoStopSearch routes fromQ toQ day).map toItinerary
    else itins1
  sortItins sortKey itins2

/-- isLayoverAcceptable from the OOP-refactored RouteSearch class kept in the
repository: gap via transferMinutes; arrival hour parsed with parseInt from
the first colon field (a NaN hour selects the night bound, since the day-hours
comparison is then false); day arrivals (hour 6 to 21) allow at most 120
minutes, night arrivals at most 30. -/
def isLayoverAcceptable (arrivalTime departureTime : Str) : Bool :=
  let layoverMinutes := transferMinutesT arrivalTime departureTime
  let isDayHours :=
    match parseIntJS ((splitOnC ':' arrivalTime).getD 0 []) with
    | some h => decide (6 ≤ h) && decide (h < 22)
    | none => false
  if isDayHours then decide (layoverMinutes ≤ 120) else decide (layoverMinutes ≤ 30)

/-- oneStopSearch of the OOP-refactored RouteSearch class: identical to
oneStopSearch except that it additionally requires isLayoverAcceptable on
the transfer. -/
def oneStopSearchChecked (routes : List Route) (fromQ toQ day : Str) : List (List Route) :=
  let cleanedTo := cleanString toQ
  (getStartList routes fromQ).flatMap (fun firstRoute =>
    let midCity := cleanString firstRoute.arriveCity
    (midOptions routes midCity).filterMap (fun secondRoute =>
      if containsSub (cleanString secondRoute.arriveCity) cleanedTo = true
          ∧ matchesDay firstRoute day = true
          ∧ matchesDay secondRoute day = true
          ∧ minTransferTime ≤ transferMinutes firstRoute secondRoute
          ∧ isLayoverAcceptable firstRoute.arriveTime secondRoute.departTime = true
      then some [firstRoute, secondRoute] else none))

/-- Modelled from the spec for the C2 comparison: the one-stop search as the
spec sentence describes it, with the connecting-city lookup using the same
exact-then-substring strategy as the start-city lookup (getStartList), in
place of the exact-equality fallback the code uses. -/
def oneStopSearchSpecMid (routes : List Route) (fromQ toQ day : Str) : List (List Route) :=
  let cleanedTo := cleanString toQ
  (getStartList routes fromQ).flatMap (fun firstRoute =>
    (getStartList routes firstRoute.arriveCity).filterMap (fun secondRoute =>
      if containsSub (cleanString secondRoute.arriveCity) cleanedTo = true
          ∧ matchesDay firstRoute day = true
          ∧ matchesDay secondRoute day = true
          ∧ minTransferTime ≤ transferMinutes firstRoute secondRoute
      then some [firstRoute, secondRoute] else none))

/-- Route R1 of the end-to-end example: Paris to Lyon, 08:00 to 10:00,
Monday and Tuesday, 50/30 EUR. -/
def rParisLyon : Route :=
  { routeId := ("R1").data
    fromCity := ("Paris").data
    arriveCity := ("Lyon").data
    departTime := ("08:00").data
    arriveTime := ("10:00").data
    trainType := ("TGV").data
    days := [("MON").data, ("TUE").data]
    price := ⟨50, 30⟩ }

/-- Route R2 of the end-to-end example: Lyon to Milan, 10:30 to 14:00,
Monday and Tuesday, 60/40 EUR. -/
def rLyonMilan : Route :=
  { routeId := ("R2").data
    fromCity := ("Lyon").data
    arriveCity := ("Milan").data
    departTime := ("10:30").data
    arriveTime := ("14:00").data
    trainType := ("IC").data
    days := [("MON").data, ("TUE").data]
    price := ⟨60, 40⟩ }

/-- Two-route network of the end-to-end claim. -/
def netC4 : List Route := [rParisLyon, rLyonMilan]

/-- First leg arriving at 10:00 (day window), no day restriction. -/
def rPL1 : Route :=
  { routeId := ("A").data
    fromCity := ("Paris").data
    arriveCity := ("Lyon").data
    departTime := ("08:00").data
    arriveTime := ("10:00").data
    trainType := []
    days := []
    price := ⟨0, 0⟩ }

/-- Second leg departing at 16:00, giving a 360-minute daytime layover. -/
def rLM16 : Route :=
  { routeId := ("B").data
    fromCity := ("Lyon").data
    arriveCity := ("Milan").data
    departTime := ("16:00").data
    arriveTime := ("18:00").data
    trainType := []
    days := []
    price := ⟨0, 0⟩ }

/-- Network exhibiting a daytime layover far above 120 minutes. -/
def netC1 : List Route := [rPL1, rLM16]

/-- Second leg departing from the station-level name Lyon Part-Dieu: its
normalized departure city strictly contains lyon without being equal to it. -/
def rPartDieu : Route :=
  { routeId := ("C").data
    fromCity := ("Lyon Part-Dieu").data
    arriveCity := ("Milan").data
    departTime := ("10:30").data
    arriveTime := ("14:00").data
    trainType := []
    days := []
    price := ⟨0, 0⟩ }

/-- Network separating the exact-equality fallback from the claimed
substring fallback at the connecting city. -/
def netC2 : List Route := [rPL1, rPartDieu]

/-- Direct Paris to Milan route running every day. -/
def rParisMilanDirect : Route :=
  { routeId := ("D").data
    fromCity := ("Paris").data
    arriveCity := ("Milan").data
    departTime := ("08:00").data
    arriveTime := ("16:00").data
    trainType := []
    days := week7
    price := ⟨100, 80⟩ }

/-- Network containing both a valid direct route and a valid one-stop chain
for the same query. -/
def netC3 : List Route := [rParisMilanDirect, rParisLyon, rLyonMilan]

/-- Characters standing for the digits 0 to 9. -/
def digitChar (d : Nat) : Char := Char.ofNat (48 + d)

/-- Zero-padded HH:MM rendering of an hour and minute pair, the wall-clock
string shape the data model prescribes for route times. -/
def renderHHMM (h m : Nat) : Str :=
  [digitChar (h / 10), digitChar (h % 10), ':', digitChar (m / 10), digitChar (m % 10)]

/-- Modelled from the spec, for comparison with timeToMinutes: a string is a
well-formed zero-padded HH:MM wall-clock time when it is two digits, a colon
and two digits, with the hour below 24 and the minute below 60. -/
def specWellFormedHHMM (s : Str) : Bool :=
  match s with
  | [h1, h2, c, m1, m2] =>
    (c == ':') && isDigitC h1 && isDigitC h2 && isDigitC m1 && isDigitC m2
      && decide (digitVal h1 * 10 + digitVal h2 < 24)
      && decide (digitVal m1 * 10 + digitVal m2 < 60)
  | _ => false

/-- Every route delivered by the connecting-city lookup departs, after
normalization, exactly from the looked-up key: both the index bucket and the
exact-equality fallback filter on that equation. -/
theorem mem_midOptions {routes : List Route} {k : Str} {r : Route}
    (h : r ∈ midOptions routes k) : cleanString r.fromCity = k := by
  have h' : r ∈ routes.filter (fun r => cleanString r.fromCity == k) := by
    unfold midOptions indexGet bucketFor at h
    by_cases hb : (List.filter (fun r => cleanString r.fromCity == k) routes).isEmpty
    · simpa [hb] using h
    · simpa [hb] using h
  simpa using (List.mem_filter.mp h').2

/-- Inversion of membership in the one-stop results: an accepted chain is a
pair of a start-list route and a connecting-option route satisfying the
arrival, day and minimum-gap conditions. -/
theorem oneStop_mem {routes : List Route} {fromQ toQ day : Str} {c : List Route}
    (h : c ∈ oneStopSearch routes fromQ toQ day) :
    ∃ r1 r2, c = [r1, r2]
      ∧ r1 ∈ getStartList routes fromQ
      ∧ r2 ∈ midOptions routes (cleanString r1.arriveCity)
      ∧ containsSub (cleanString r2.arriveCity) (cleanString toQ) = true
      ∧ matchesDay r1 day = true
      ∧ matchesDay r2 day = true
      ∧ minTransferTime ≤ transferMinutes r1 r2 := by
  unfold oneStopSearch at h
  simp only [List.mem_flatMap, List.mem_filterMap] at h
  obtain ⟨r1, h1, r2, h2, hif⟩ := h
  split at hif
  · rename_i hcond
    obtain ⟨hc1, hc2, hc3, hc4⟩ := hcond
    cases hif
    exact ⟨r1, r2, rfl, h1, h2, hc1, hc2, hc3, hc4⟩
  · cases hif

/-- Inversion of membership in the two-stop results. -/
theorem twoStop_mem {routes : List Route} {fromQ toQ day : Str} {c : List Route}
    (h : c ∈ twoStopSearch routes fromQ toQ day) :
    ∃ r1 r2 r3, c = [r1, r2, r3]
      ∧ r1 ∈ getStartList routes fromQ
      ∧ r2 ∈ midOptions routes (cleanString r1.arriveCity)
      ∧ r3 ∈ midOptions routes (cleanString r2.arriveCity)
      ∧ matchesDay r1 day = true
      ∧ matchesDay r2 day = true
      ∧ matchesDay r3 day = true
      ∧ containsSub (cleanString r3.arriveCity) (cleanString toQ) = true
      ∧ minTransferTime ≤ transferMinutes r1 r2
      ∧ minTransferTime ≤ transferMinutes r2 r3 := by
  unfold twoStopSearch at h
  simp only [List.mem_flatMap] at h
  obtain ⟨r1, h1, r2, h2, hin⟩ := h
  split at hin
  · rename_i hcond
    obtain ⟨hc1, hc2, hc3⟩ := hcond
    simp only [List.mem_filterMap] at hin
    obtain ⟨r3, h3, hif⟩ := hin
    split at hif
    · rename_i hcond2
      obtain ⟨hd1, hd2, hd3⟩ := hcond2
      cases hif
      exact ⟨r1, r2, r3, rfl, h1, h2, h3, hc1, hc2, hd2, hd1, hc3, hd3⟩
    · cases hif
  · cases hin

theorem digitChar_beq_colon (d : Nat) (hd : d < 10) : (digitChar d == ':') = false := by
  interval_cases d <;> decide

theorem jsNumber_two_digits (a b : Nat) (ha : a < 10) (hb : b < 10) :
    jsNumber [digitChar a, digitChar b] = some ((10 * a + b : Nat) : Int) := by
  interval_cases a <;> interval_cases b <;> decide

theorem splitOnC_renderHHMM (h m : Nat) (hh : h < 100) (hm : m < 100) :
    splitOnC ':' (renderHHMM h m)
      = [[digitChar (h / 10), digitChar (h % 10)], [digitChar (m / 10), digitChar (m % 10)]] := by
  have e1 := digitChar_beq_colon (h / 10) (by omega)
  have e2 := digitChar_beq_colon (h % 10) (by omega)
  have e3 := digitChar_beq_colon (m / 10) (by omega)
  have e4 := digitChar_beq_colon (m % 10) (by omega)
  simp [renderHHMM, splitOnC, e1, e2, e3, e4]

theorem timeToMinutes_render (h m : Nat) (hh : h < 100) (hm : m < 100) :
    timeToMinutes (renderHHMM h m) = ((60 * h + m : Nat) : Int) := by
  have hsplit := splitOnC_renderHHMM h m hh hm
  have j1 := jsNumber_two_digits (h / 10) (h % 10) (by omega) (by omega)
  have j2 := jsNumber_two_digits (m / 10) (m % 10) (by omega) (by omega)
  unfold timeToMinutes
  rw [hsplit]
  simp only [List.getD, List.drop, List.get?, Option.getD_some, j1, j2]
  have hv1 : 10 * (h / 10) + h % 10 = h := by omega
  have hv2 : 10 * (m / 10) + m % 10 = m := by omega
  rw [hv1, hv2]
  push_cast
  ring

/-- If trimming empties a string, every one of its characters is whitespace. -/
theorem trimL_eq_nil {l : Str} (h : trimL l = []) : ∀ c ∈ l, isWsChar c = true := by
  unfold trimL at h
  have h1 : (l.dropWhile isWsChar).reverse.dropWhile isWsChar = [] := by
    rw [← List.reverse_eq_nil_iff]
    exact h
  have h2 : ∀ c ∈ (l.dropWhile isWsChar).reverse, isWsChar c = true := by
    intro c hc
    exact List.dropWhile_eq_nil_iff.mp h1 c hc
  intro c hc
  rcases List.mem_append.mp
      (by rw [List.takeWhile_append_dropWhile (p := isWsChar) (l := l)]; exact hc) with hmem | hmem
  · exact List.mem_takeWhile_imp hmem
  · exact h2 c (List.mem_reverse.mpr hmem)

/-- A string containing a non-whitespace character is nonEmpty in the sense
of the source helper. -/
theorem nonEmptyS_of_mem {s : Str} (c : Char) (hc : c ∈ s) (hw : isWsChar c = false) :
    nonEmptyS s = true := by
  unfold nonEmptyS
  by_cases ht : trimL s = []
  · exact absurd (trimL_eq_nil ht c hc) (by simp [hw])
  · simp [List.isEmpty_iff, ht]

/-- Substring containment implies containment of every pattern character. -/
theorem mem_of_containsSub {hay pat : Str} (h : containsSub hay pat = true)
    (c : Char) (hc : c ∈ pat) : c ∈ hay := by
  unfold containsSub at h
  rw [List.any_eq_true] at h
  obtain ⟨t, ht, hpre⟩ := h
  have hsuf : t <:+ hay := (List.mem_tails t hay).mp ht
  have hpre' : pat <+: t := by
    rw [ List.isPrefixOf_iff_prefix] at hpre
    exact hpre
  exact hsuf.subset (hpre'.subset hc)


/-- C1: the one-stop search of the cited implementation accepts the chain
Paris-Lyon (arriving 10:00, inside the day window) followed by Lyon-Milan
(departing 16:00), whose 360-minute transfer gap violates the layover
feasibility rule (day arrivals allow at most 120 minutes); the
OOP-refactored search kept in the same repository, which implements the
rule via isLayoverAcceptable, rejects exactly this chain. -/
theorem oneStop_accepts_infeasible_layover :
    oneStopSearch netC1 (("Paris").data) (("Milan").data) [] = [[rPL1, rLM16]]
    ∧ transferMinutes rPL1 rLM16 = 360
    ∧ isLayoverAcceptable rPL1.arriveTime rLM16.departTime = false
    ∧ oneStopSearchChecked netC1 (("Paris").data) (("Milan").data) [] = [] := by decide

/-- C2 counterexample: on the network whose only connecting route departs
from Lyon Part-Dieu, the code's one-stop search returns nothing while the
spec's exact-then-substring connecting-city lookup (oneStopSearchSpecMid)
returns the chain, so the two lookup strategies are not the same. -/
theorem midLookup_not_substring_cex :
    oneStopSearch netC2 (("Paris").data) (("Milan").data) [] = []
    ∧ oneStopSearchSpecMid netC2 (("Paris").data) (("Milan").data) [] = [[rPL1, rPartDieu]]
    ∧ oneStopSearch netC2 (("Paris").data) (("Milan").data) []
        ≠ oneStopSearchSpecMid netC2 (("Paris").data) (("Milan").data) [] := by decide

/-- C2 amended: the connecting-city lookup of the one-stop and two-stop
searches is the exact bucket and, failing that, an exact-equality scan, so
in every accepted chain each leg's normalized departure city equals the
previous leg's normalized arrival city exactly (no substring fallback). -/
theorem midLookup_exact_equality (routes : List Route) (fromQ toQ day : Str) (c : List Route)
    (h : c ∈ oneStopSearch routes fromQ toQ day ∨ c ∈ twoStopSearch routes fromQ toQ day) :
    List.Chain' (fun a b => cleanString b.fromCity = cleanString a.arriveCity) c := by
  rcases h with h | h
  · obtain ⟨r1, r2, rfl, _, hm2, _⟩ := oneStop_mem h
    simp only [List.chain'_cons, List.chain'_singleton, and_true]
    exact mem_midOptions hm2
  · obtain ⟨r1, r2, r3, rfl, _, hm2, hm3, _⟩ := twoStop_mem h
    simp only [List.chain'_cons, List.chain'_singleton, and_true]
    exact ⟨mem_midOptions hm2, mem_midOptions hm3⟩

/-- Witness for the amended C2 theorem at the accepted chain of the
end-to-end network. -/
theorem midLookup_exact_equality_witness :
    List.Chain' (fun a b => cleanString b.fromCity = cleanString a.arriveCity)
      [rParisLyon, rLyonMilan] :=
  midLookup_exact_equality netC4 (("Paris").data) (("Milan").data) (("mon").data)
    [rParisLyon, rLyonMilan] (Or.inl (by decide))

/-- C3: the search endpoint uses direct results when there are any, one-stop
results only when direct produced none, two-stop results only when both
produced none; on a network with both a valid direct route and a valid
one-stop chain it returns only the direct itinerary. -/
theorem search_priority_shortCircuit (routes : List Route) (fromQ toQ day sortKey : Str) :
    (directSearch routes fromQ toQ day ≠ [] →
      apiSearch routes fromQ toQ day sortKey
        = sortItins sortKey ((directSearch routes fromQ toQ day).map (fun r => toItinerary [r])))
    ∧ (directSearch routes fromQ toQ day = [] → oneStopSearch routes fromQ toQ day ≠ [] →
      apiSearch routes fromQ toQ day sortKey
        = sortItins sortKey ((oneStopSearch routes fromQ toQ day).map toItinerary))
    ∧ (directSearch routes fromQ toQ day = [] → oneStopSearch routes fromQ toQ day = [] →
      apiSearch routes fromQ toQ day sortKey
        = sortItins sortKey ((twoStopSearch routes fromQ toQ day).map toItinerary))
    ∧ apiSearch netC3 (("Paris").data) (("Milan").data) (("mon").data) (("duration").data)
        = [toItinerary [rParisMilanDirect]]
    ∧ oneStopSearch netC3 (("Paris").data) (("Milan").data) (("mon").data)
        = [[rParisLyon, rLyonMilan]] := by
  refine ⟨?_, ?_, ?_, by decide, by decide⟩
  · intro hd
    have h0 : ((directSearch routes fromQ toQ day).map (fun r => toItinerary [r])).isEmpty
        = false := by
      simp [List.isEmpty_iff, hd]
    unfold apiSearch
    simp [h0]
  · intro hd h1
    have h0 : ((oneStopSearch routes fromQ toQ day).map toItinerary).isEmpty = false := by
      simp [List.isEmpty_iff, h1]
    unfold apiSearch
    simp [hd, h0]
  · intro hd h1
    unfold apiSearch
    simp [hd, h1]

/-- Witness for the C3 theorem: on the two-path network the endpoint result
equals the sorted direct itineraries. -/
theorem search_priority_shortCircuit_witness :
    apiSearch netC3 (("Paris").data) (("Milan").data) (("mon").data) (("duration").data)
      = sortItins (("duration").data)
          ((directSearch netC3 (("Paris").data) (("Milan").data) (("mon").data)).map
            (fun r => toItinerary [r])) :=
  (search_priority_shortCircuit netC3 (("Paris").data) (("Milan").data) (("mon").data)
    (("duration").data)).1 (by decide)

/-- C4: on the two-route network R1 Paris-Lyon 08:00-10:00 MON,TUE 50/30 and
R2 Lyon-Milan 10:30-14:00 MON,TUE 60/40, the search for Paris to Milan on
mon finds no direct route, finds exactly the chain R1,R2 by the one-stop
search, and the endpoint returns exactly one itinerary with total duration
360, total price 110/70 and transfer list 30. -/
theorem endToEnd_paris_milan :
    directSearch netC4 (("Paris").data) (("Milan").data) (("mon").data) = []
    ∧ oneStopSearch netC4 (("Paris").data) (("Milan").data) (("mon").data)
        = [[rParisLyon, rLyonMilan]]
    ∧ apiSearch netC4 (("Paris").data) (("Milan").data) (("mon").data) (("duration").data)
        = [{ id := ("R1+R2").data
             totalDurationMinutes := 360
             totalPrice := ⟨110, 70⟩
             transferTimes := [30]
             segments := [rParisLyon, rLyonMilan] }] := by decide

/-- C5: calendar expansion maps Mon-Wed to MON,TUE,WED, daily to all seven
codes, the empty string to the empty set, and wrapping ranges walk forward
modulo 7 until the end code, so Fri-Mon gives FRI,SAT,SUN,MON and Sat-Tue
gives SAT,SUN,MON,TUE. -/
theorem expandDays_examples :
    expandDays (("Mon-Wed").data) = [("MON").data, ("TUE").data, ("WED").data]
    ∧ expandDays (("daily").data) = week7
    ∧ expandDays (("").data) = []
    ∧ expandDays (("Fri-Mon").data) = [("FRI").data, ("SAT").data, ("SUN").data, ("MON").data]
    ∧ expandDays (("Sat-Tue").data) = [("SAT").data, ("SUN").data, ("MON").data, ("TUE").data]
    := by decide

/-- C6: every chain accepted by the one-stop or two-stop search has every
consecutive transfer gap at least the fixed minimum transfer threshold of
10 minutes. -/
theorem minTransfer_threshold (routes : List Route) (fromQ toQ day : Str) (c : List Route)
    (h : c ∈ oneStopSearch routes fromQ toQ day ∨ c ∈ twoStopSearch routes fromQ toQ day) :
    List.Chain' (fun a b => minTransferTime ≤ transferMinutes a b) c := by
  rcases h with h | h
  · obtain ⟨r1, r2, rfl, _, _, _, _, _, hgap⟩ := oneStop_mem h
    simp only [List.chain'_cons, List.chain'_singleton, and_true]
    exact hgap
  · obtain ⟨r1, r2, r3, rfl, _, _, _, _, _, _, _, hg1, hg2⟩ := twoStop_mem h
    simp only [List.chain'_cons, List.chain'_singleton, and_true]
    exact ⟨hg1, hg2⟩

/-- Witness for the C6 theorem at the accepted chain of the end-to-end
network. -/
theorem minTransfer_threshold_witness :
    List.Chain' (fun a b => minTransferTime ≤ transferMinutes a b) [rParisLyon, rLyonMilan] :=
  minTransfer_threshold netC4 (("Paris").data) (("Milan").data) (("mon").data)
    [rParisLyon, rLyonMilan] (Or.inl (by decide))

/-- C7: on routes carrying well-formed HH:MM wall-clock times, the transfer
gap is the next departure minus the previous arrival in minutes, plus 1440
exactly when that difference is negative; it is never negative, and the
23:50 to 00:05 example wraps to 15. -/
theorem transferGap_spec (prev next : Route) (ah am dh dm : Nat)
    (hprev : prev.arriveTime = renderHHMM ah am)
    (hnext : next.departTime = renderHHMM dh dm)
    (hah : ah < 24) (ham : am < 60) (hdh : dh < 24) (hdm : dm < 60) :
    (transferMinutes prev next =
      if 0 ≤ ((60 * dh + dm : Nat) : Int) - ((60 * ah + am : Nat) : Int)
      then ((60 * dh + dm : Nat) : Int) - ((60 * ah + am : Nat) : Int)
      else ((60 * dh + dm : Nat) : Int) - ((60 * ah + am : Nat) : Int) + 1440)
    ∧ 0 ≤ transferMinutes prev next
    ∧ transferMinutesT (("23:50").data) (("00:05").data) = 15 := by
  have ha := timeToMinutes_render ah am (by omega) (by omega)
  have hd := timeToMinutes_render dh dm (by omega) (by omega)
  have hu : transferMinutes prev next =
      (if ((60 * dh + dm : Nat) : Int) - ((60 * ah + am : Nat) : Int) ≥ 0
       then ((60 * dh + dm : Nat) : Int) - ((60 * ah + am : Nat) : Int)
       else ((60 * dh + dm : Nat) : Int) - ((60 * ah + am : Nat) : Int) + 24 * 60) := by
    unfold transferMinutes transferMinutesT
    rw [hprev, hnext, ha, hd]
  refine ⟨?_, ?_, by decide⟩
  · rw [hu]
    split_ifs <;> omega
  · rw [hu]
    split_ifs <;> omega

/-- Witness for the C7 theorem at the 18:00 arrival and 08:00 departure of
two concrete routes. -/
theorem transferGap_spec_witness : 0 ≤ transferMinutes rLM16 rPL1 :=
  (transferGap_spec rLM16 rPL1 18 0 8 0 (by decide) (by decide) (by decide) (by decide)
    (by decide) (by decide)).2.1

/-- C8 counterexample: 99:99 is not a well-formed HH:MM wall-clock string,
yet timeToMinutes returns 6039 for it, not 0, because both colon fields
still coerce to numbers. -/
theorem timeToMinutes_malformed_cex :
    specWellFormedHHMM (("99:99").data) = false
    ∧ timeToMinutes (("99:99").data) = 6039
    ∧ (6039 : Int) ≠ 0 := by decide

/-- C8 amended: timeToMinutes maps every well-formed HH:MM wall-clock string
to its minutes since midnight; inputs where either of the first two colon
fields fails numeric coercion yield 0 and never an error; malformed inputs
whose first two fields still coerce numerically yield the computed value
rather than 0. -/
theorem timeToMinutes_amended :
    (∀ h m : Nat, h < 24 → m < 60 →
      timeToMinutes (renderHHMM h m) = ((60 * h + m : Nat) : Int))
    ∧ timeToMinutes (("").data) = 0
    ∧ timeToMinutes (("abc").data) = 0
    ∧ timeToMinutes (("12:xx").data) = 0
    ∧ timeToMinutes ((":").data) = 0
    ∧ timeToMinutes (("99:99").data) = 6039 :=
  ⟨fun h m hh hm => timeToMinutes_render h m (by omega) (by omega),
   by decide, by decide, by decide, by decide, by decide⟩

/-- Witness for the amended C8 theorem at 09:05. -/
theorem timeToMinutes_amended_witness :
    timeToMinutes (renderHHMM 9 5) = ((60 * 9 + 5 : Nat) : Int) :=
  timeToMinutes_amended.1 9 5 (by decide) (by decide)

/-- C10: expandDays returns all seven codes whenever the normalized input
contains daily as a substring, and whenever the normalized input equals all
exactly; an input merely containing all as a substring (calls) gets no
shortcut and expands to nothing. -/
theorem expandDays_daily_substring :
    (∀ s : Str, containsSub (cleanString s) (("daily").data) = true → expandDays s = week7)
    ∧ expandDays (("daily except sunday").data) = week7
    ∧ containsSub (("calls").data) (("all").data) = true
    ∧ (("calls").data : Str) ≠ ("all").data
    ∧ expandDays (("calls").data) = []
    ∧ (∀ s : Str, cleanString s = ("all").data → expandDays s = week7) := by
  refine ⟨?_, by decide, by decide, by decide, by decide, ?_⟩
  · intro s hsub
    have hdm : 'd' ∈ cleanString s := mem_of_containsSub hsub 'd' (by decide)
    have hne := nonEmptyS_of_mem 'd' hdm (by decide)
    unfold expandDays
    simp [hne, hsub]
  · intro s hall
    unfold expandDays
    rw [hall]
    decide

/-- Witness for the C10 theorem at a phrase containing daily and at an input
normalizing exactly to all. -/
theorem expandDays_daily_substring_witness :
    expandDays (("Runs Daily").data) = week7 ∧ expandDays (("ALL ").data) = week7 :=
  ⟨expandDays_daily_substring.1 (("Runs Daily").data) (by decide),
   expandDays_daily_substring.2.2.2.2.2 (("ALL ").data) (by decide)⟩
